import Mathlib

/-!
Verification development for the node-fs-methods repository.

Part 1 models the EMFILE/ENFILE retry queue of `src/lib/fs/gracefull-fs.mjs`
(the queue entries, the drain loop `retryQueue`, and the wrapper
`wrapWithRetry`), together with the uid/gid stat normalization and the
chown/chmod error swallowing of `patchFs` from the same file.

Part 2 models the recursive copy engine of `src/unnamed/part_000`
(`copySync`, `getStats`, `onFile`, `mayCopyFile`, `copyFile`, `onDir`,
`copyDir`, `copyDirItem`, `onLink`, `copyLink` and their helpers) over an
abstract filesystem.

Times are rationals (JavaScript numbers holding millisecond timestamps);
JavaScript arithmetic on possibly-non-numeric values is modelled by `JSNum`,
which has an explicit `nan` element, because the drain loop of the source can
feed a non-numeric value into its timestamp arithmetic.
-/

namespace Gfs

/-- An error value as delivered to a Node-style callback: its `code`
(for example "EMFILE") plus an opaque message payload.  Claims about errors
being forwarded "unmodified" are stated as equality of this whole value. -/
structure FsError where
  code : String
  msg : String
deriving DecidableEq, Repr

/-- The resource-exhaustion test of gracefull-fs.mjs line 93:
`err.code === 'EMFILE' || err.code === 'ENFILE'`. -/
def isResourceExhausted (e : FsError) : Bool :=
  e.code == "EMFILE" || e.code == "ENFILE"

/-- A JavaScript number as used by the drain loop: either an actual (rational)
number or NaN.  NaN arises when arithmetic is applied to a value that is not a
number, such as a path string stored where a timestamp was expected. -/
inductive JSNum where
  | num (x : ℚ)
  | nan
deriving DecidableEq, Repr

/-- JavaScript subtraction: NaN-propagating. -/
def JSNum.sub : JSNum → JSNum → JSNum
  | .num a, .num b => .num (a - b)
  | _, _ => .nan

/-- JavaScript multiplication: NaN-propagating. -/
def JSNum.mul : JSNum → JSNum → JSNum
  | .num a, .num b => .num (a * b)
  | _, _ => .nan

/-- `Math.max`: returns NaN if either argument is NaN. -/
def JSNum.jmax : JSNum → JSNum → JSNum
  | .num a, .num b => .num (max a b)
  | _, _ => .nan

/-- `Math.min`: returns NaN if either argument is NaN. -/
def JSNum.jmin : JSNum → JSNum → JSNum
  | .num a, .num b => .num (min a b)
  | _, _ => .nan

/-- The JavaScript `>=` comparison: any comparison with NaN is false. -/
def JSNum.geb : JSNum → JSNum → Bool
  | .num a, .num b => decide (b ≤ a)
  | _, _ => false

/-- The backoff threshold of gracefull-fs.mjs lines 64-65:
`Math.min(Math.max(lastTime - startTime, 1) * 1.2, 100)`
(1.2 is written as the rational 6/5). -/
def jsDelay (startTime lastTime : JSNum) : JSNum :=
  JSNum.jmin (JSNum.mul (JSNum.jmax (JSNum.sub lastTime startTime) (.num 1)) (.num (6 / 5)))
    (.num 100)

/-- Result of one underlying attempt of a wrapped operation, as seen by the
internal callback of `wrapWithRetry` (line 92): either a success value or an
error value. -/
inductive Outcome where
  | ok (v : ℕ)
  | fail (e : FsError)

/-- An invocation of the original completion callback: the value (or error)
it received and the time at which it was invoked. -/
inductive Completion where
  | success (v : ℕ) (t : ℚ)
  | failure (e : FsError) (t : ℚ)
deriving DecidableEq, Repr

/-- The drain loop of `retryQueue` (gracefull-fs.mjs lines 59-81) specialised
to a single queued entry, written as a recursion over `fuel` loop iterations.

State: `i` indexes the loop iteration (iteration `i` reads `Date.now()` as
`clock i`, line 62); `n` is the index of the next underlying attempt, whose
result is `b n` and whose callback fires `lag n` milliseconds after the attempt
is issued; `e`, `start`, `last` are the entry's stored last error, `startTime`
and `lastTime` slots.

Each iteration follows the source exactly: if `now - startTime >= 60000`
(line 67) the stored callback is invoked with the stored error and the entry is
dropped; else if `sinceAttempt >= delay` (line 74) the entry is retried by
calling the stored function with the stored argument list spread first
(`fn(...args, startTime)`, line 76) — the stored function is `attempt`, whose
single parameter is `startTime`, so that parameter is bound to the FIRST stored
argument of the original call; its numeric coercion is `argNum` (NaN for a path
string).  A retried attempt that fails with EMFILE/ENFILE is re-enqueued
(line 94) with `startTime` taken from that corrupted parameter; any other
completion invokes the original callback (line 96).  Otherwise the entry is
pushed back with `lastTime` refreshed to `now` (line 78).

Returns the completion delivered to the original callback (if any within
`fuel` iterations) and the total number of underlying attempts made. -/
def drainWrapped (b : ℕ → Outcome) (clock : ℕ → ℚ) (lag : ℕ → ℚ) (argNum : JSNum) :
    ℕ → ℕ → ℕ → FsError → JSNum → JSNum → Option Completion × ℕ
  | 0, _, n, _, _, _ => (none, n)
  | fuel + 1, i, n, e, start, last =>
    if (JSNum.sub (.num (clock i)) start).geb (.num 60000) then
      (some (.failure e (clock i)), n)
    else if (JSNum.sub (.num (clock i)) last).geb (jsDelay start last) then
      match b n with
      | .ok v => (some (.success v (clock i + lag n)), n + 1)
      | .fail e2 =>
        if isResourceExhausted e2 then
          drainWrapped b clock lag argNum fuel (i + 1) (n + 1) e2 argNum
            (.num (clock i + lag n))
        else (some (.failure e2 (clock i + lag n)), n + 1)
    else
      drainWrapped b clock lag argNum fuel (i + 1) n e start (.num (clock i))

/-- The wrapper `wrapWithRetry` (gracefull-fs.mjs lines 89-100) applied to one
call: the first attempt is issued immediately at time `t0` (its callback fires
at `t0 + lag 0`).  On an EMFILE/ENFILE failure the call is enqueued with
`startTime = t0` and `lastTime` = the callback time, and handled by the drain
loop; on any other completion the original callback is invoked directly. -/
def wrapWithRetry (b : ℕ → Outcome) (clock : ℕ → ℚ) (lag : ℕ → ℚ) (argNum : JSNum)
    (t0 : ℚ) (fuel : ℕ) : Option Completion × ℕ :=
  match b 0 with
  | .ok v => (some (.success v (t0 + lag 0)), 1)
  | .fail e =>
    if isResourceExhausted e then
      drainWrapped b clock lag argNum fuel 0 1 e (.num t0) (.num (t0 + lag 0))
    else (some (.failure e (t0 + lag 0)), 1)

/-- A queued entry of the process-wide retry queue, abstracting the stored
function and argument list by an operation identifier: the 5-tuple
`[fn, args, err, startTime, lastTime]` of gracefull-fs.mjs line 61. -/
structure QEntry where
  opId : ℕ
  err : FsError
  startTime : JSNum
  lastTime : JSNum
deriving DecidableEq, Repr

/-- One observable step of a drain pass: an entry was abandoned (its callback
invoked with its stored error, line 70), retried (line 76), or pushed back to
the tail because it was not yet due (line 78). -/
inductive PassEvent where
  | timeout (opId : ℕ) (e : FsError)
  | retry (opId : ℕ)
  | defer (opId : ℕ)
deriving DecidableEq, Repr

/-- The drain pass of `retryQueue` (gracefull-fs.mjs lines 59-81) at queue
level: `while (queue.length)` shifts the head entry, reads `Date.now()` (the
`i`-th iteration reads `clock i`), abandons the entry if
`now - startTime >= 60000`, retries it if `sinceAttempt >= delay`, and
otherwise pushes it back to the tail with `lastTime := now`.  Re-enqueues of
failed retried attempts arrive only after the pass (their callbacks run on the
macrotask queue), so a retried entry simply leaves the pass.  Returns the queue
left when the loop stops, the event trace, and whether the loop exited via an
empty queue (`true`) as opposed to running out of `fuel` iterations. -/
def retryQueuePass (clock : ℕ → ℚ) :
    ℕ → ℕ → List QEntry → List QEntry × List PassEvent × Bool
  | 0, _, q => (q, [], false)
  | _ + 1, _, [] => ([], [], true)
  | fuel + 1, i, e :: rest =>
    if (JSNum.sub (.num (clock i)) e.startTime).geb (.num 60000) then
      let r := retryQueuePass clock fuel (i + 1) rest
      (r.1, .timeout e.opId e.err :: r.2.1, r.2.2)
    else if (JSNum.sub (.num (clock i)) e.lastTime).geb (jsDelay e.startTime e.lastTime) then
      let r := retryQueuePass clock fuel (i + 1) rest
      (r.1, .retry e.opId :: r.2.1, r.2.2)
    else
      let r := retryQueuePass clock fuel (i + 1) (rest ++ [{ e with lastTime := .num (clock i) }])
      (r.1, .defer e.opId :: r.2.1, r.2.2)

/-- Operation identifiers of the entries that left the queue during a pass
(by abandonment or by being retried); deferred entries stay queued. -/
def droppedIds : List PassEvent → List ℕ
  | [] => []
  | .timeout o _ :: evs => o :: droppedIds evs
  | .retry o :: evs => o :: droppedIds evs
  | .defer _ :: evs => droppedIds evs

end Gfs

namespace CopyEngine

/-- A filesystem path, as an already-split list of segments; `path.join`
becomes list append of one segment. -/
abbrev Path := List String

/-- The non-directory file kinds that `getStats` copies byte-wise:
`isFile() || isCharacterDevice() || isBlockDevice()` (part_000 line 59). -/
inductive FileKind where
  | regular
  | charDev
  | blockDev
deriving DecidableEq, Repr

/-- The string stored in a symbolic link, split into segments and tagged with
whether it is an absolute path (needed to model `path.resolve`). -/
structure PathExpr where
  absolute : Bool
  segs : Path
deriving DecidableEq, Repr

/-- A filesystem entry.  Directory nodes carry their children's names in
listing order (the order `opendirSync`/`readSync` yields them).  Byte content
is a list of byte values; timestamps are not tracked by the model (no claim
observes them). -/
inductive FsNode where
  | file (kind : FileKind) (data : List ℕ) (mode : ℕ)
  | dir (mode : ℕ) (children : List String)
  | symlink (target : PathExpr)
  | socket
  | fifo
  | unknownKind
deriving DecidableEq, Repr

/-- A filesystem state: a partial map from paths to nodes.  Children lists of
directory nodes are authoritative only for directories being traversed as copy
sources; mutating syscalls update the map at the mutated path. -/
abbrev FS := Path → Option FsNode

/-- Point update of a filesystem state. -/
def FS.set (fs : FS) (p : Path) (n : Option FsNode) : FS :=
  fun q => if q = p then n else fs q

/-- The errors the copy engine can raise (part_000 throws `Error` objects;
they are distinguished here by shape) together with the OS error codes of the
modelled syscalls.  `noFuel` is a model artifact marking recursion-depth
exhaustion, never produced by the claims' scenarios. -/
inductive CopyErr where
  | alreadyExists (dest : Path)
  | selfCopy (src dest : PathExpr)
  | overwriteConflict (dest src : PathExpr)
  | socketCopy (src : Path)
  | fifoCopy (src : Path)
  | unknownFile (src : Path)
  | samePaths (src dest : Path)
  | intoItself (src dest : Path)
  | enoent (p : Path)
  | eexist (p : Path)
  | einval (p : Path)
  | noFuel
deriving DecidableEq, Repr

/-- Result of an engine step: the new filesystem state, or an error paired
with the state at the moment the error was raised (the source mutates the
real filesystem in place, so partial work before a throw is preserved). -/
abbrev CopyRes := Except (CopyErr × FS) FS

/-- `path.dirname`: drop the final segment. -/
def dirname (p : Path) : Path := p.dropLast

/-- Resolve a link target against the directory that contains the link
(used when a stat follows a symbolic link). -/
def resolveExpr (base : Path) (t : PathExpr) : Path :=
  if t.absolute then t.segs else base ++ t.segs

/-- `path.resolve(process.cwd(), target)`: an absolute target is returned
unchanged, a relative one is made absolute against the working directory
(part_000 lines 216 and 233). -/
def pathResolve (cwd : Path) (t : PathExpr) : PathExpr :=
  if t.absolute then t else { absolute := true, segs := cwd ++ t.segs }

/-- `fs.lstatSync`: the node at the path itself, `none` when absent.  The
engine only consumes the type and mode of a stat, so the node stands for the
stat object. -/
def lstatSync (fs : FS) (p : Path) : Option FsNode := fs p

/-- `fs.statSync`: like `lstatSync` but following symbolic links
(chains bounded by `fuel`). -/
def statSyncF (fs : FS) : ℕ → Path → Option FsNode
  | 0, _ => none
  | fuel + 1, p =>
    match fs p with
    | some (.symlink t) => statSyncF fs fuel (resolveExpr (dirname p) t)
    | other => other

/-- `fs.existsSync`. -/
def existsSync (fs : FS) (p : Path) : Bool := (fs p).isSome

/-- `fs.unlinkSync`: remove the entry, ENOENT when absent. -/
def unlinkSync (fs : FS) (p : Path) : CopyRes :=
  match fs p with
  | some _ => .ok (fs.set p none)
  | none => .error (.enoent p, fs)

/-- `fs.symlinkSync(target, p)`: create a link, EEXIST if `p` exists. -/
def symlinkSync (fs : FS) (target : PathExpr) (p : Path) : CopyRes :=
  match fs p with
  | some _ => .error (.eexist p, fs)
  | none => .ok (fs.set p (some (.symlink target)))

/-- `fs.copyFileSync(src, dest)`: replace `dest` by a file with the source's
kind, bytes and mode (libuv creates the destination with the source's
permissions). -/
def copyFileSync (fs : FS) (src dest : Path) : CopyRes :=
  match fs src with
  | some (.file k data mode) => .ok (fs.set dest (some (.file k data mode)))
  | some _ => .error (.einval src, fs)
  | none => .error (.enoent src, fs)

/-- `fs.chmodSync`. -/
def chmodSync (fs : FS) (p : Path) (mode : ℕ) : CopyRes :=
  match fs p with
  | some (.file k data _) => .ok (fs.set p (some (.file k data mode)))
  | some (.dir _ ch) => .ok (fs.set p (some (.dir mode ch)))
  | some _ => .ok fs
  | none => .error (.enoent p, fs)

/-- `fs.mkdirSync` (no parents): EEXIST if present; a fresh directory starts
with mode 0o777 and no children. -/
def mkdirSync (fs : FS) (p : Path) : CopyRes :=
  match fs p with
  | some _ => .error (.eexist p, fs)
  | none => .ok (fs.set p (some (.dir 511 [])))

/-- Modelled from the spec: `mkdirsSync` (src/lib/mkdirs.js, not included
under src/) is the "ensure path exists" helper that creates the directory and
any missing parents. -/
def mkdirsSync (fs : FS) (p : Path) : FS :=
  (List.range (p.length + 1)).foldl
    (fun acc k =>
      match acc (p.take k) with
      | some _ => acc
      | none => acc.set (p.take k) (some (.dir 511 [])))
    fs

/-- Modelled from the spec: `utimesMillisSync` (src/lib/util/utimes.js, not
included under src/) writes the destination's access/modification times; the
model does not track timestamps, so it only requires the target to exist. -/
def utimesMillisSync (fs : FS) (p : Path) : CopyRes :=
  match fs p with
  | some _ => .ok fs
  | none => .error (.enoent p, fs)

/-- Whether `dest` lies inside `src`.  Modelled from the spec:
`isSrcSubdir` (src/lib/util/stat.js, not included under src/) is the
path-containment collaborator; containment is segment-prefix containment of
paths of the same absolute/relative kind. -/
def isSrcSubdir (src dest : PathExpr) : Bool :=
  src.absolute == dest.absolute && src.segs.isPrefixOf dest.segs

/-- The copy options after `copySync` has resolved the `clobber`/`overwrite`
defaulting (part_000 lines 28-29).  `cwd` models `process.cwd()`, threaded
here because the engine reads it when resolving link targets. -/
structure CopyOpts where
  overwrite : Bool := true
  errorOnExist : Bool := false
  preserveTimestamps : Bool := false
  dereference : Bool := false
  filter : Option (Path → Path → Bool) := none
  cwd : Path := []

/-- The options object as passed by the caller, before defaulting:
`clobber` and `overwrite` may each be absent. -/
structure RawCopyOpts where
  clobber : Option Bool := none
  overwrite : Option Bool := none
  errorOnExist : Bool := false
  preserveTimestamps : Bool := false
  dereference : Bool := false
  filter : Option (Path → Path → Bool) := none
  cwd : Path := []

/-- Option resolution of part_000 lines 27-29: `clobber` defaults to true,
`overwrite` defaults to `clobber`. -/
def resolveOpts (o : RawCopyOpts) : CopyOpts :=
  { overwrite := o.overwrite.getD (o.clobber.getD true)
    errorOnExist := o.errorOnExist
    preserveTimestamps := o.preserveTimestamps
    dereference := o.dereference
    filter := o.filter
    cwd := o.cwd }

/-- The filter guard `opts.filter && !opts.filter(src, dest)` (part_000
lines 41 and 202). -/
def filteredOut (opts : CopyOpts) (src dest : Path) : Bool :=
  match opts.filter with
  | some f => !f src dest
  | none => false

/-- Modelled from the spec: `checkPathsSync` (src/lib/util/stat.js, not
included under src/) validates that src and dest are not the same path and
that dest is not nested inside src, and returns fresh stats of both
(read-only: it never mutates the filesystem). -/
def checkPathsSync (fs : FS) (fuel : ℕ) (src dest : Path) (opts : CopyOpts) :
    Except (CopyErr × FS) (FsNode × Option FsNode) :=
  match (if opts.dereference then statSyncF fs fuel src else lstatSync fs src) with
  | none => .error (.enoent src, fs)
  | some s =>
    if src = dest then .error (.samePaths src dest, fs)
    else if src.isPrefixOf dest then .error (.intoItself src dest, fs)
    else .ok (s, fs dest)

/-- Modelled from the spec: `checkParentPathsSync` (src/lib/util/stat.js, not
included under src/) re-checks through parent directories that the source does
not contain the destination (read-only validation). -/
def checkParentPathsSync (fs : FS) (src : Path) (_srcStat : FsNode) (dest : Path) :
    Except (CopyErr × FS) Unit :=
  if src.isPrefixOf dest then .error (.intoItself src dest, fs) else .ok ()

/-- The mode of a stat'd node (`srcStat.mode`). -/
def FsNode.mode : FsNode → ℕ
  | .file _ _ m => m
  | .dir m _ => m
  | _ => 0

/-- `setDestMode` (part_000 lines 138-140): chmod the destination to the
source's mode. -/
def setDestMode (fs : FS) (dest : Path) (srcMode : ℕ) : CopyRes :=
  chmodSync fs dest srcMode

/-- `fileIsNotWritable` (part_000 lines 122-124): owner-write bit clear. -/
def fileIsNotWritable (srcMode : ℕ) : Bool :=
  srcMode &&& 0o200 == 0

/-- `makeFileWritable` (part_000 lines 130-132). -/
def makeFileWritable (fs : FS) (dest : Path) (srcMode : ℕ) : CopyRes :=
  setDestMode fs dest (srcMode ||| 0o200)

/-- `setDestTimestamps` (part_000 lines 146-149): re-stat the source
(following links) and copy its times onto the destination. -/
def setDestTimestamps (fuel : ℕ) (fs : FS) (src dest : Path) : CopyRes :=
  match statSyncF fs fuel src with
  | none => .error (.enoent src, fs)
  | some _ => utimesMillisSync fs dest

/-- `handleTimestamps` (part_000 lines 113-116). -/
def handleTimestamps (fuel : ℕ) (fs : FS) (srcMode : ℕ) (src dest : Path) : CopyRes := do
  let fs1 ← if fileIsNotWritable srcMode then makeFileWritable fs dest srcMode else pure fs
  setDestTimestamps fuel fs1 src dest

/-- `copyFile` (part_000 lines 102-106): copy bytes, optionally fix
timestamps, then set the destination's mode to the source's. -/
def copyFile (fuel : ℕ) (fs : FS) (srcStat : FsNode) (src dest : Path)
    (opts : CopyOpts) : CopyRes := do
  let fs1 ← copyFileSync fs src dest
  let fs2 ← if opts.preserveTimestamps then handleTimestamps fuel fs1 srcStat.mode src dest
            else pure fs1
  setDestMode fs2 dest srcStat.mode

/-- `mayCopyFile` (part_000 lines 87-94): overwrite policy when the
destination exists. -/
def mayCopyFile (fuel : ℕ) (fs : FS) (srcStat : FsNode) (src dest : Path)
    (opts : CopyOpts) : CopyRes :=
  if opts.overwrite then do
    let fs1 ← unlinkSync fs dest
    copyFile fuel fs1 srcStat src dest opts
  else if opts.errorOnExist then .error (.alreadyExists dest, fs)
  else .ok fs

/-- `onFile` (part_000 lines 76-79). -/
def onFile (fuel : ℕ) (fs : FS) (srcStat : FsNode) (destStat : Option FsNode)
    (src dest : Path) (opts : CopyOpts) : CopyRes :=
  match destStat with
  | none => copyFile fuel fs srcStat src dest opts
  | some _ => mayCopyFile fuel fs srcStat src dest opts

/-- `copyLink` (part_000 lines 252-255): drop the existing destination link
and recreate it pointing at the resolved source target. -/
def copyLink (fs : FS) (resolvedSrc : PathExpr) (dest : Path) : CopyRes := do
  let fs1 ← unlinkSync fs dest
  symlinkSync fs1 resolvedSrc dest

/-- `onLink` (part_000 lines 213-246).  `readlinkSync(dest)` appears as the
match on `fs dest`: a non-link destination raises EINVAL, which the source
catches and answers with `symlinkSync` (line 226); a missing destination
raises ENOENT, which is rethrown. -/
def onLink (fs : FS) (destStat : Option FsNode) (src dest : Path)
    (opts : CopyOpts) : CopyRes :=
  match fs src with
  | some (.symlink target) =>
    let resolvedSrc := if opts.dereference then pathResolve opts.cwd target else target
    match destStat with
    | none => symlinkSync fs resolvedSrc dest
    | some _ =>
      match fs dest with
      | some (.symlink dtarget) =>
        let resolvedDest := if opts.dereference then pathResolve opts.cwd dtarget else dtarget
        if isSrcSubdir resolvedSrc resolvedDest then
          .error (.selfCopy resolvedSrc resolvedDest, fs)
        else if isSrcSubdir resolvedDest resolvedSrc then
          .error (.overwriteConflict resolvedDest resolvedSrc, fs)
        else copyLink fs resolvedSrc dest
      | some _ => symlinkSync fs resolvedSrc dest
      | none => .error (.enoent dest, fs)
  | some _ => .error (.einval src, fs)
  | none => .error (.enoent src, fs)

mutual

/-- `getStats` (part_000 lines 54-67): stat the source (following links when
`dereference`) and dispatch on its type.  `fuel` bounds the recursion depth of
the directory traversal; each mutual call consumes one unit. -/
def getStats (fuel : ℕ) (fs : FS) (destStat : Option FsNode) (src dest : Path)
    (opts : CopyOpts) : CopyRes :=
  match (if opts.dereference then statSyncF fs fuel src else lstatSync fs src) with
  | none => .error (.enoent src, fs)
  | some (.dir m ch) =>
    (match fuel with
     | 0 => .error (.noFuel, fs)
     | f + 1 => onDir f fs (.dir m ch) destStat src dest opts)
  | some (.file k data m) => onFile fuel fs (.file k data m) destStat src dest opts
  | some (.symlink _) => onLink fs destStat src dest opts
  | some .socket => .error (.socketCopy src, fs)
  | some .fifo => .error (.fifoCopy src, fs)
  | some .unknownKind => .error (.unknownFile src, fs)

/-- `onDir` (part_000 lines 158-161). -/
def onDir (fuel : ℕ) (fs : FS) (srcStat : FsNode) (destStat : Option FsNode)
    (src dest : Path) (opts : CopyOpts) : CopyRes :=
  match fuel with
  | 0 => .error (.noFuel, fs)
  | f + 1 =>
    match destStat with
    | none => mkDirAndCopy f fs srcStat.mode src dest opts
    | some _ => copyDir f fs src dest opts

/-- `mkDirAndCopy` (part_000 lines 169-173). -/
def mkDirAndCopy (fuel : ℕ) (fs : FS) (srcMode : ℕ) (src dest : Path)
    (opts : CopyOpts) : CopyRes :=
  match fuel with
  | 0 => .error (.noFuel, fs)
  | f + 1 => do
    let fs1 ← mkdirSync fs dest
    let fs2 ← copyDir f fs1 src dest opts
    setDestMode fs2 dest srcMode

/-- `copyDir` (part_000 lines 180-191): iterate the source directory's
entries in listing order. -/
def copyDir (fuel : ℕ) (fs : FS) (src dest : Path) (opts : CopyOpts) : CopyRes :=
  match fuel with
  | 0 => .error (.noFuel, fs)
  | f + 1 =>
    match fs src with
    | some (.dir _ children) => copyDirItems f fs children src dest opts
    | some _ => .error (.einval src, fs)
    | none => .error (.enoent src, fs)

/-- The `while ((dirent = dir.readSync()) !== null)` loop body of `copyDir`,
one `copyDirItem` per child in order. -/
def copyDirItems (fuel : ℕ) (fs : FS) (items : List String) (src dest : Path)
    (opts : CopyOpts) : CopyRes :=
  match fuel with
  | 0 => .error (.noFuel, fs)
  | f + 1 =>
    match items with
    | [] => .ok fs
    | it :: rest => do
      let fs1 ← copyDirItem f fs it src dest opts
      copyDirItems f fs1 rest src dest opts

/-- `copyDirItem` (part_000 lines 199-205): join the child name onto both
paths, apply the filter guard first, then validate and recurse. -/
def copyDirItem (fuel : ℕ) (fs : FS) (item : String) (src dest : Path)
    (opts : CopyOpts) : CopyRes :=
  if filteredOut opts (src ++ [item]) (dest ++ [item]) then .ok fs
  else
    match fuel with
    | 0 => .error (.noFuel, fs)
    | f + 1 =>
      match checkPathsSync fs f (src ++ [item]) (dest ++ [item]) opts with
      | .error e => .error e
      | .ok (_, destStat) => getStats f fs destStat (src ++ [item]) (dest ++ [item]) opts

end

/-- `copySync` (part_000 lines 22-46): resolve options, validate paths, apply
the root filter guard, ensure the destination's parent exists, then dispatch.
(The function-valued `opts` shorthand of lines 23-25 is the caller passing
`{ filter := f }`; the 32-bit `preserveTimestamps` warning of lines 31-37 has
no filesystem effect and is not modelled.) -/
def copySync (fuel : ℕ) (fs : FS) (src dest : Path) (ro : RawCopyOpts) : CopyRes :=
  let opts := resolveOpts ro
  match checkPathsSync fs fuel src dest opts with
  | .error e => .error e
  | .ok (srcStat, destStat) =>
    match checkParentPathsSync fs src srcStat dest with
    | .error e => .error e
    | .ok _ =>
      if filteredOut opts src dest then .ok fs
      else
        let fs1 := if existsSync fs (dirname dest) then fs else mkdirsSync fs (dirname dest)
        getStats fuel fs1 destStat src dest opts

/-- The filesystem state carried by an engine result, whether or not an error
was raised. -/
def copyResState : CopyRes → FS
  | .ok s => s
  | .error (_, s) => s

end CopyEngine

namespace Gfs

/-- A stat result as consumed by `statFix` (gracefull-fs.mjs lines 195-212):
the user/group identifiers it may rewrite, plus representative further fields
(`mode`, `size`, `mtimeMs`) standing for everything it must leave alone. -/
structure Stats where
  uid : ℤ
  gid : ℤ
  mode : ℕ
  size : ℕ
  mtimeMs : ℕ
deriving DecidableEq, Repr

/-- The uid/gid rewrite shared by `statFix` and `statFixSync`
(lines 201-202 and 209-210): a negative identifier gains 2^32, a
non-negative one and every other field are untouched. -/
def fixStats (s : Stats) : Stats :=
  let s1 := if s.uid < 0 then { s with uid := s.uid + 2 ^ 32 } else s
  if s1.gid < 0 then { s1 with gid := s1.gid + 2 ^ 32 } else s1

/-- `statFix` (lines 195-205): wrap a callback-style stat operation so that a
successful result is normalized by `fixStats`; an error passes through ( the
source's callback receives `(err, undefined)` unchanged). -/
def statFix (orig : α → Except FsError Stats) : α → Except FsError Stats :=
  fun a =>
    match orig a with
    | .ok s => .ok (fixStats s)
    | .error e => .error e

/-- `statFixSync` (lines 207-212): the synchronous variant, same rewrite. -/
def statFixSync (orig : α → Except FsError Stats) : α → Except FsError Stats :=
  fun a =>
    match orig a with
    | .ok s => .ok (fixStats s)
    | .error e => .error e

/-- The six stat entry points patchFs rewrites (lines 228-234). -/
structure FsStatModule (α : Type) where
  stat : α → Except FsError Stats
  fstat : α → Except FsError Stats
  lstat : α → Except FsError Stats
  statSync : α → Except FsError Stats
  fstatSync : α → Except FsError Stats
  lstatSync : α → Except FsError Stats

/-- The stat section of `patchFs` (lines 228-234): every async stat operation
is wrapped by `statFix`, every sync one by `statFixSync`. -/
def patchFsStats (m : FsStatModule α) : FsStatModule α :=
  { stat := statFix m.stat
    fstat := statFix m.fstat
    lstat := statFix m.lstat
    statSync := statFixSync m.statSync
    fstatSync := statFixSync m.fstatSync
    lstatSync := statFixSync m.lstatSync }

/-- `isIgnorableChownErr` (gracefull-fs.mjs lines 156-163).  `nonRoot` is the
condition `!process.getuid || process.getuid() !== 0` of line 159 (getuid
unavailable, or not uid 0). -/
def isIgnorableChownErr (nonRoot : Bool) (err : Option FsError) : Bool :=
  match err with
  | none => true
  | some e =>
    if e.code == "ENOSYS" then true
    else if nonRoot then e.code == "EPERM" || e.code == "EINVAL"
    else false

/-- `chownFix` (lines 165-170): wrap a chown-style operation so that an
ignorable error is reported to the callback as success (`err = null`) and any
other error is forwarded unchanged. -/
def chownFix (nonRoot : Bool) (orig : α → Except FsError Unit) :
    α → Except FsError Unit :=
  fun a =>
    match orig a with
    | .ok u => .ok u
    | .error e => if isIgnorableChownErr nonRoot (some e) then .ok () else .error e

/-- `chmodFix` (lines 172-177): identical error policy at chmod's arity. -/
def chmodFix (nonRoot : Bool) (orig : α → Except FsError Unit) :
    α → Except FsError Unit :=
  fun a =>
    match orig a with
    | .ok u => .ok u
    | .error e => if isIgnorableChownErr nonRoot (some e) then .ok () else .error e

/-- `chownFixSync` (lines 179-185): the try/catch variant — an ignorable
exception is swallowed, any other rethrown. -/
def chownFixSync (nonRoot : Bool) (orig : α → Except FsError Unit) :
    α → Except FsError Unit :=
  fun a =>
    match orig a with
    | .ok u => .ok u
    | .error e => if isIgnorableChownErr nonRoot (some e) then .ok () else .error e

/-- `chmodFixSync` (lines 187-193). -/
def chmodFixSync (nonRoot : Bool) (orig : α → Except FsError Unit) :
    α → Except FsError Unit :=
  fun a =>
    match orig a with
    | .ok u => .ok u
    | .error e => if isIgnorableChownErr nonRoot (some e) then .ok () else .error e

/-- The twelve chown/chmod entry points patchFs rewrites (lines 214-226). -/
structure FsChownModule (α : Type) where
  chown : α → Except FsError Unit
  fchown : α → Except FsError Unit
  lchown : α → Except FsError Unit
  chmod : α → Except FsError Unit
  fchmod : α → Except FsError Unit
  lchmod : α → Except FsError Unit
  chownSync : α → Except FsError Unit
  fchownSync : α → Except FsError Unit
  lchownSync : α → Except FsError Unit
  chmodSync : α → Except FsError Unit
  fchmodSync : α → Except FsError Unit
  lchmodSync : α → Except FsError Unit

/-- The chown/chmod section of `patchFs` (lines 214-226). -/
def patchFsChown (nonRoot : Bool) (m : FsChownModule α) : FsChownModule α :=
  { chown := chownFix nonRoot m.chown
    fchown := chownFix nonRoot m.fchown
    lchown := chownFix nonRoot m.lchown
    chmod := chmodFix nonRoot m.chmod
    fchmod := chmodFix nonRoot m.fchmod
    lchmod := chmodFix nonRoot m.lchmod
    chownSync := chownFixSync nonRoot m.chownSync
    fchownSync := chownFixSync nonRoot m.fchownSync
    lchownSync := chownFixSync nonRoot m.lchownSync
    chmodSync := chmodFixSync nonRoot m.chmodSync
    fchmodSync := chmodFixSync nonRoot m.fchmodSync
    lchmodSync := chmodFixSync nonRoot m.lchmodSync }

end Gfs

namespace Gfs

/-- An EMFILE error value, used by the concrete retry scenarios. -/
def emfileError : FsError := { code := "EMFILE", msg := "too many open files" }

/-- A behaviour whose every underlying attempt fails with EMFILE. -/
def alwaysExhausted : ℕ → Outcome := fun _ => .fail emfileError

/-- A drain clock advancing 200 ms per loop iteration. -/
def clockSteady : ℕ → ℚ := fun i => 200 * (i + 1)

/-- Instantaneous underlying callbacks. -/
def lagZero : ℕ → ℚ := fun _ => 0

/-- Once an entry's stored `startTime` slot holds a non-numeric value, every
later drain iteration computes a NaN deadline and a NaN backoff threshold,
both comparisons are false, and the entry is deferred forever: no completion
is ever delivered and no further attempt is made, whatever the clock, the
remaining behaviour, or the iteration budget. -/
theorem drainWrapped_nan_start (b : ℕ → Outcome) (clock lag : ℕ → ℚ) (argNum : JSNum) :
    ∀ fuel i n e last,
      drainWrapped b clock lag argNum fuel i n e JSNum.nan last = (none, n) := by
  intro fuel
  induction fuel with
  | zero =>
    intro i n e last
    simp [drainWrapped]
  | succ f ih =>
    intro i n e last
    have hdl : (JSNum.sub (.num (clock i)) JSNum.nan).geb (.num 60000) = false := rfl
    have hdue : (JSNum.sub (.num (clock i)) last).geb (jsDelay JSNum.nan last) = false := by
      cases last <;> rfl
    simp only [drainWrapped, hdl, Bool.false_eq_true, if_false, hdue]
    exact ih (i + 1) n e (.num (clock i))

/-- C1: the claim fails on the code.  For a wrapped call whose first argument
is a path string and whose underlying attempts all fail with EMFILE, the
original completion callback is NEVER invoked: the first retry re-invokes the
stored `attempt` function with the stored argument list spread in front
(line 76), binding its `startTime` parameter to the path string, and the
re-enqueued entry's timestamp arithmetic is NaN from then on, so the entry is
deferred forever and the 60-second abandonment is unreachable. -/
theorem c1_retry_bug_callback_never_invoked (fuel : ℕ) :
    (wrapWithRetry alwaysExhausted clockSteady lagZero JSNum.nan 0 fuel).1 = none := by
  cases fuel with
  | zero => decide
  | succ f =>
    have key := drainWrapped_nan_start alwaysExhausted clockSteady lagZero JSNum.nan
      f 1 2 emfileError (.num (clockSteady 0 + lagZero 1))
    have step : wrapWithRetry alwaysExhausted clockSteady lagZero JSNum.nan 0 (f + 1)
        = drainWrapped alwaysExhausted clockSteady lagZero JSNum.nan f 1 2 emfileError
            JSNum.nan (.num (clockSteady 0 + lagZero 1)) := by
      have hdl : (JSNum.sub (.num (clockSteady 0)) (.num 0)).geb (.num 60000) = false := by
        simp only [clockSteady, JSNum.sub, JSNum.geb, decide_eq_false_iff_not]
        norm_num
      have hdue : (JSNum.sub (.num (clockSteady 0)) (.num (0 + lagZero 0))).geb
          (jsDelay (.num 0) (.num (0 + lagZero 0))) = true := by
        simp only [clockSteady, lagZero, jsDelay, JSNum.sub, JSNum.jmax, JSNum.mul,
          JSNum.jmin, JSNum.geb, decide_eq_true_eq]
        have h100 : min (max ((0:ℚ) + 0 - 0) 1 * (6 / 5)) 100 ≤ 100 := min_le_right _ _
        norm_num at h100 ⊢
      have hres : isResourceExhausted emfileError = true := rfl
      simp only [wrapWithRetry, alwaysExhausted, hres, if_true, drainWrapped, hdl,
        Bool.false_eq_true, if_false, hdue]
    rw [step, key]

/-- C3: an EMFILE failure of the first attempt followed by a successful first
retry delivers exactly one completion to the original caller, carrying the
success value, and never an error completion: the success path of the internal
callback (line 96) fires with the retry's result.  Hypotheses place the single
retry before the 60-second deadline and after the backoff threshold. -/
theorem c3_exhaustion_then_success_completes_once
    (b : ℕ → Outcome) (clock lag : ℕ → ℚ) (argNum : JSNum) (t0 : ℚ) (fuel : ℕ)
    (e0 : FsError) (v : ℕ)
    (hb0 : b 0 = .fail e0) (hres : isResourceExhausted e0 = true)
    (hb1 : b 1 = .ok v)
    (hdue : t0 + lag 0 + 100 ≤ clock 0)
    (hdl : clock 0 < t0 + 60000)
    (hfuel : 1 ≤ fuel) :
    wrapWithRetry b clock lag argNum t0 fuel = (some (.success v (clock 0 + lag 1)), 2) := by
  obtain ⟨f, rfl⟩ : ∃ f, fuel = f + 1 := ⟨fuel - 1, by omega⟩
  have h1 : (JSNum.sub (.num (clock 0)) (.num t0)).geb (.num 60000) = false := by
    simp only [JSNum.sub, JSNum.geb, decide_eq_false_iff_not]
    intro h
    linarith
  have h2 : (JSNum.sub (.num (clock 0)) (.num (t0 + lag 0))).geb
      (jsDelay (.num t0) (.num (t0 + lag 0))) = true := by
    simp only [jsDelay, JSNum.sub, JSNum.jmax, JSNum.mul, JSNum.jmin, JSNum.geb,
      decide_eq_true_eq]
    have hcap : min (max (t0 + lag 0 - t0) 1 * (6 / 5)) 100 ≤ (100 : ℚ) := min_le_right _ _
    linarith
  simp only [wrapWithRetry, hb0, hres, if_true, drainWrapped, h1, Bool.false_eq_true,
    if_false, h2, if_true, hb1]

/-- Witness for C3 at a concrete scenario: first attempt EMFILE at time 0, the
drain loop runs at time 1000 and the retry succeeds with value 42. -/
theorem c3_witness :
    ((fun n => if n == 0 then Outcome.fail emfileError else Outcome.ok 42) 0
        = Outcome.fail emfileError) ∧
    isResourceExhausted emfileError = true ∧
    ((0 : ℚ) + 0 + 100 ≤ 1000) ∧ ((1000 : ℚ) < 0 + 60000) ∧
    wrapWithRetry (fun n => if n == 0 then Outcome.fail emfileError else Outcome.ok 42)
        (fun _ => 1000) (fun _ => 0) JSNum.nan 0 1
      = (some (.success 42 1000), 2) := by
  refine ⟨rfl, rfl, by norm_num, by norm_num, ?_⟩
  have h := c3_exhaustion_then_success_completes_once
    (fun n => if n == 0 then Outcome.fail emfileError else Outcome.ok 42)
    (fun _ => 1000) (fun _ => 0) JSNum.nan 0 1 emfileError 42
    rfl rfl rfl (by norm_num) (by norm_num) (by norm_num)
  simpa using h

/-- C5: an underlying completion whose error code is neither EMFILE nor ENFILE
is forwarded to the original completion callback exactly once and unmodified,
at the first attempt's callback time; nothing is enqueued and no retry is ever
attempted (the attempt count stays 1 whatever the drain clock or budget). -/
theorem c5_other_errors_pass_through
    (b : ℕ → Outcome) (clock lag : ℕ → ℚ) (argNum : JSNum) (t0 : ℚ) (fuel : ℕ)
    (e : FsError)
    (hb : b 0 = .fail e) (hres : isResourceExhausted e = false) :
    wrapWithRetry b clock lag argNum t0 fuel = (some (.failure e (t0 + lag 0)), 1) := by
  simp [wrapWithRetry, hb, hres]

/-- Witness for C5: an EACCES failure on the first attempt at time 5. -/
theorem c5_witness :
    isResourceExhausted { code := "EACCES", msg := "denied" } = false ∧
    wrapWithRetry (fun _ => .fail { code := "EACCES", msg := "denied" })
        (fun _ => 0) (fun _ => 0) JSNum.nan 5 3
      = (some (.failure { code := "EACCES", msg := "denied" } 5), 1) := by
  refine ⟨by decide, ?_⟩
  have h := c5_other_errors_pass_through
    (fun _ => .fail { code := "EACCES", msg := "denied" })
    (fun _ => 0) (fun _ => 0) JSNum.nan 5 3 { code := "EACCES", msg := "denied" }
    rfl (by decide)
  simpa using h

end Gfs

namespace Gfs

/-- C4: the claim fails on the code.  On a healthy entry the threshold does
follow min(max(lastAttemptAt - enqueuedAt, 1) * 1.2, 100) and caps at 100 ms
(third and fourth conjuncts), but after a retried attempt fails with EMFILE
the re-enqueued entry's `startTime` slot holds the call's first argument, so
the threshold computed from the stored slots is NaN (first conjunct) and the
due comparison is permanently false (second conjunct): later thresholds of a
repeatedly failing entry are NaN, not a non-decreasing millisecond sequence
capped at 100. -/
theorem c4_backoff_nan_after_corruption :
    jsDelay JSNum.nan (JSNum.num 50) = JSNum.nan ∧
    (JSNum.sub (JSNum.num 100000) (JSNum.num 50)).geb (jsDelay JSNum.nan (JSNum.num 50))
      = false ∧
    jsDelay (JSNum.num 0) (JSNum.num 50) = JSNum.num 60 ∧
    jsDelay (JSNum.num 0) (JSNum.num 1000) = JSNum.num 100 := by
  refine ⟨rfl, rfl, ?_, ?_⟩
  · show JSNum.jmin (JSNum.num (max ((50:ℚ) - 0) 1 * (6 / 5))) (JSNum.num 100) = JSNum.num 60
    simp only [JSNum.jmin]
    norm_num
  · show JSNum.jmin (JSNum.num (max ((1000:ℚ) - 0) 1 * (6 / 5))) (JSNum.num 100)
      = JSNum.num 100
    simp only [JSNum.jmin]
    norm_num

/-- C2 counterexample: a pass over a single queue entry that is not yet due
(its backoff threshold is 1.2 ms and no time has elapsed) handles that same
entry TWICE within one pass — each not-yet-due entry is pushed back to the
tail and immediately re-examined by the still-running `while (queue.length)`
loop — and the pass has not completed even though only a not-yet-due entry
remains queued.  This refutes "handling each queued entry at most once per
pass" and "the pass then completes even when not-yet-due entries remain
queued". -/
theorem c2_counterexample :
    retryQueuePass (fun _ => 0) 2 0
        [{ opId := 7, err := emfileError, startTime := .num 0, lastTime := .num 0 }]
      = ([{ opId := 7, err := emfileError, startTime := .num 0, lastTime := .num 0 }],
         [.defer 7, .defer 7], false) := by
  have h : (JSNum.sub (.num ((fun _ => (0:ℚ)) 0)) (JSNum.num 0)).geb (.num 60000)
      = false := by
    simp only [JSNum.sub, JSNum.geb, decide_eq_false_iff_not]
    norm_num
  have h2 : (JSNum.sub (.num ((fun _ => (0:ℚ)) 0)) (JSNum.num 0)).geb
      (jsDelay (JSNum.num 0) (JSNum.num 0)) = false := by
    simp only [jsDelay, JSNum.sub, JSNum.jmax, JSNum.mul, JSNum.jmin, JSNum.geb,
      decide_eq_false_iff_not]
    norm_num
  simp [retryQueuePass, h, h2]

/-- C2 amended: a drain pass repeatedly processes the head of the Retry Queue
until the queue empties, abandoning an expired entry, retrying a due one, or
deferring a not-yet-due one to the tail (possibly re-examining it within the
same pass); the loop exits normally only with an empty queue (first
conjunct), and every queued entry either leaves the pass through exactly one
abandon or retry event or is still queued when the pass is interrupted
(second conjunct: the input entries are a permutation of the remaining
entries plus the dropped ones). -/
theorem c2_amended_drain_pass (clock : ℕ → ℚ) (fuel i : ℕ) (q : List QEntry) :
    ((retryQueuePass clock fuel i q).2.2 = true → (retryQueuePass clock fuel i q).1 = []) ∧
    List.Perm (q.map QEntry.opId)
      ((retryQueuePass clock fuel i q).1.map QEntry.opId ++
        droppedIds (retryQueuePass clock fuel i q).2.1) := by
  induction fuel generalizing i q with
  | zero =>
    refine ⟨by simp [retryQueuePass], ?_⟩
    simp [retryQueuePass, droppedIds]
  | succ f ih =>
    cases q with
    | nil =>
      refine ⟨fun _ => rfl, ?_⟩
      simp [retryQueuePass, droppedIds]
    | cons e rest =>
      by_cases hto : (JSNum.sub (.num (clock i)) e.startTime).geb (.num 60000) = true
      · obtain ⟨ih1, ih2⟩ := ih (i + 1) rest
        have heq : retryQueuePass clock (f + 1) i (e :: rest)
            = ((retryQueuePass clock f (i + 1) rest).1,
               .timeout e.opId e.err :: (retryQueuePass clock f (i + 1) rest).2.1,
               (retryQueuePass clock f (i + 1) rest).2.2) := by
          simp only [retryQueuePass, hto, if_true]
        rw [heq]
        refine ⟨ih1, ?_⟩
        simp only [List.map_cons, droppedIds]
        exact (ih2.cons e.opId).trans List.perm_middle.symm
      · by_cases hdue : (JSNum.sub (.num (clock i)) e.lastTime).geb
            (jsDelay e.startTime e.lastTime) = true
        · obtain ⟨ih1, ih2⟩ := ih (i + 1) rest
          have heq : retryQueuePass clock (f + 1) i (e :: rest)
              = ((retryQueuePass clock f (i + 1) rest).1,
                 .retry e.opId :: (retryQueuePass clock f (i + 1) rest).2.1,
                 (retryQueuePass clock f (i + 1) rest).2.2) := by
            simp only [retryQueuePass, hto, hdue, if_true, Bool.false_eq_true, if_false]
          rw [heq]
          refine ⟨ih1, ?_⟩
          simp only [List.map_cons, droppedIds]
          exact (ih2.cons e.opId).trans List.perm_middle.symm
        · obtain ⟨ih1, ih2⟩ :=
            ih (i + 1) (rest ++ [{ e with lastTime := .num (clock i) }])
          have heq : retryQueuePass clock (f + 1) i (e :: rest)
              = ((retryQueuePass clock f (i + 1)
                    (rest ++ [{ e with lastTime := .num (clock i) }])).1,
                 .defer e.opId :: (retryQueuePass clock f (i + 1)
                    (rest ++ [{ e with lastTime := .num (clock i) }])).2.1,
                 (retryQueuePass clock f (i + 1)
                    (rest ++ [{ e with lastTime := .num (clock i) }])).2.2) := by
            simp only [retryQueuePass, hto, hdue, Bool.false_eq_true, if_false]
          rw [heq]
          refine ⟨ih1, ?_⟩
          simp only [List.map_cons, droppedIds]
          have hstep : List.Perm (e.opId :: rest.map QEntry.opId)
              ((rest ++ [{ e with lastTime := .num (clock i) }]).map QEntry.opId) := by
            simp only [List.map_append, List.map_cons, List.map_nil]
            exact (List.perm_append_singleton _ _).symm
          exact hstep.trans ih2

end Gfs

namespace Gfs

/-- C9: for every patched stat operation (stat, fstat, lstat and their Sync
variants), a returned stats object has a negative uid or gid normalized by
adding 2^32, non-negative identifiers and all other fields are returned
unchanged, and each of the six patched entry points is exactly the underlying
operation with its successful result rewritten by this normalization (errors
pass through untouched, via `Except.map`). -/
theorem c9_stat_uid_gid_normalization {α : Type} (m : FsStatModule α) (a : α) (s : Stats) :
    (fixStats s).uid = (if s.uid < 0 then s.uid + 2 ^ 32 else s.uid) ∧
    (fixStats s).gid = (if s.gid < 0 then s.gid + 2 ^ 32 else s.gid) ∧
    (fixStats s).mode = s.mode ∧
    (fixStats s).size = s.size ∧
    (fixStats s).mtimeMs = s.mtimeMs ∧
    (patchFsStats m).stat a = Except.map fixStats (m.stat a) ∧
    (patchFsStats m).fstat a = Except.map fixStats (m.fstat a) ∧
    (patchFsStats m).lstat a = Except.map fixStats (m.lstat a) ∧
    (patchFsStats m).statSync a = Except.map fixStats (m.statSync a) ∧
    (patchFsStats m).fstatSync a = Except.map fixStats (m.fstatSync a) ∧
    (patchFsStats m).lstatSync a = Except.map fixStats (m.lstatSync a) := by
  refine ⟨?_, ?_, ?_, ?_, ?_, ?_, ?_, ?_, ?_, ?_, ?_⟩
  · by_cases h1 : s.uid < 0 <;> by_cases h2 : s.gid < 0 <;> simp [fixStats, h1, h2]
  · by_cases h1 : s.uid < 0 <;> by_cases h2 : s.gid < 0 <;> simp [fixStats, h1, h2]
  · by_cases h1 : s.uid < 0 <;> by_cases h2 : s.gid < 0 <;> simp [fixStats, h1, h2]
  · by_cases h1 : s.uid < 0 <;> by_cases h2 : s.gid < 0 <;> simp [fixStats, h1, h2]
  · by_cases h1 : s.uid < 0 <;> by_cases h2 : s.gid < 0 <;> simp [fixStats, h1, h2]
  · cases h : m.stat a <;> simp [patchFsStats, statFix, h, Except.map]
  · cases h : m.fstat a <;> simp [patchFsStats, statFix, h, Except.map]
  · cases h : m.lstat a <;> simp [patchFsStats, statFix, h, Except.map]
  · cases h : m.statSync a <;> simp [patchFsStats, statFixSync, h, Except.map]
  · cases h : m.fstatSync a <;> simp [patchFsStats, statFixSync, h, Except.map]
  · cases h : m.lstatSync a <;> simp [patchFsStats, statFixSync, h, Except.map]

/-- The spec's wording of the chown/chmod error policy, stated independently
of the source (a policy is applied to an underlying result): an error is
reported as success exactly when its code is ENOSYS, or its code is EPERM or
EINVAL while the process is not running as root; every other error is
surfaced to the caller unchanged. -/
def chownPolicySpec (nonRoot : Bool) (orig : α → Except FsError Unit) :
    α → Except FsError Unit :=
  fun a =>
    match orig a with
    | .ok u => .ok u
    | .error e =>
      if e.code = "ENOSYS" ∨ (nonRoot = true ∧ (e.code = "EPERM" ∨ e.code = "EINVAL"))
      then .ok () else .error e

/-- C10: each of `chownFix`, `chmodFix`, `chownFixSync`, `chmodFixSync`
implements exactly the spec's swallowing policy (`chownPolicySpec`), and
`patchFs` applies them to all twelve chown/chmod entry points. -/
theorem c10_chown_chmod_error_swallowing {α : Type} (nonRoot : Bool)
    (orig : α → Except FsError Unit) (a : α) (m : FsChownModule α) :
    chownFix nonRoot orig a = chownPolicySpec nonRoot orig a ∧
    chmodFix nonRoot orig a = chownPolicySpec nonRoot orig a ∧
    chownFixSync nonRoot orig a = chownPolicySpec nonRoot orig a ∧
    chmodFixSync nonRoot orig a = chownPolicySpec nonRoot orig a ∧
    (patchFsChown nonRoot m).chown = chownFix nonRoot m.chown ∧
    (patchFsChown nonRoot m).fchown = chownFix nonRoot m.fchown ∧
    (patchFsChown nonRoot m).lchown = chownFix nonRoot m.lchown ∧
    (patchFsChown nonRoot m).chmod = chmodFix nonRoot m.chmod ∧
    (patchFsChown nonRoot m).fchmod = chmodFix nonRoot m.fchmod ∧
    (patchFsChown nonRoot m).lchmod = chmodFix nonRoot m.lchmod ∧
    (patchFsChown nonRoot m).chownSync = chownFixSync nonRoot m.chownSync ∧
    (patchFsChown nonRoot m).fchownSync = chownFixSync nonRoot m.fchownSync ∧
    (patchFsChown nonRoot m).lchownSync = chownFixSync nonRoot m.lchownSync ∧
    (patchFsChown nonRoot m).chmodSync = chmodFixSync nonRoot m.chmodSync ∧
    (patchFsChown nonRoot m).fchmodSync = chmodFixSync nonRoot m.fchmodSync ∧
    (patchFsChown nonRoot m).lchmodSync = chmodFixSync nonRoot m.lchmodSync := by
  have key : ∀ r : Except FsError Unit,
      (match r with
        | .ok u => Except.ok u
        | .error e =>
          if isIgnorableChownErr nonRoot (some e) then Except.ok () else Except.error e)
      = (match r with
        | .ok u => Except.ok u
        | .error e =>
          if e.code = "ENOSYS" ∨ (nonRoot = true ∧ (e.code = "EPERM" ∨ e.code = "EINVAL"))
          then Except.ok () else Except.error e) := by
    intro r
    cases r with
    | ok u => rfl
    | error e =>
      simp only [isIgnorableChownErr]
      by_cases h1 : e.code = "ENOSYS"
      · simp [h1]
      · cases nonRoot with
        | false => simp [h1]
        | true =>
          by_cases h2 : e.code = "EPERM"
          · simp [h1, h2]
          · by_cases h3 : e.code = "EINVAL" <;> simp [h1, h2, h3]
  exact ⟨key (orig a), key (orig a), key (orig a), key (orig a), rfl, rfl, rfl, rfl,
    rfl, rfl, rfl, rfl, rfl, rfl, rfl, rfl⟩

end Gfs

namespace CopyEngine

/-- Bind on an already-successful engine step. -/
theorem ok_bind (a : FS) (f : FS → CopyRes) :
    (Except.ok a : CopyRes) >>= f = f a := rfl

/-- Bind on an already-failed engine step. -/
theorem error_bind (e : CopyErr × FS) (f : FS → CopyRes) :
    (Except.error e : CopyRes) >>= f = .error e := rfl

/-- Bind on a pure engine step. -/
theorem pure_bind_copy (a : FS) (f : FS → CopyRes) :
    (pure a : CopyRes) >>= f = f a := rfl

/-- C7: when copying a symbolic link onto an existing destination link, the
engine compares the (dereference-resolved) targets: source-contains-dest
raises the self-copy error, dest-contains-source raises the overwrite
conflict, and otherwise the existing destination link is removed and
recreated pointing at the resolved source target, touching no other path. -/
theorem c7_symlink_conflicts (fs : FS) (ts td : PathExpr) (dnode : FsNode)
    (src dest : Path) (opts : CopyOpts) (rs rd : PathExpr)
    (hsrc : fs src = some (.symlink ts))
    (hdest : fs dest = some (.symlink td))
    (hrs : rs = (if opts.dereference then pathResolve opts.cwd ts else ts))
    (hrd : rd = (if opts.dereference then pathResolve opts.cwd td else td)) :
    (isSrcSubdir rs rd = true →
      onLink fs (some dnode) src dest opts = .error (.selfCopy rs rd, fs)) ∧
    (isSrcSubdir rs rd = false → isSrcSubdir rd rs = true →
      onLink fs (some dnode) src dest opts = .error (.overwriteConflict rd rs, fs)) ∧
    (isSrcSubdir rs rd = false → isSrcSubdir rd rs = false →
      ∃ fs2, onLink fs (some dnode) src dest opts = .ok fs2 ∧
        fs2 dest = some (.symlink rs) ∧ ∀ p, p ≠ dest → fs2 p = fs p) :=
  by
  subst hrs hrd
  refine ⟨fun h1 => ?_, fun h1 h2 => ?_, fun h1 h2 => ?_⟩
  · simp only [onLink, hsrc, hdest, h1, if_true]
  · simp only [onLink, hsrc, hdest, h1, Bool.false_eq_true, if_false, h2, if_true]
  · have hunlink : unlinkSync fs dest = .ok (fs.set dest none) := by
      simp [unlinkSync, hdest]
    have hsym : symlinkSync (fs.set dest none)
        (if opts.dereference then pathResolve opts.cwd ts else ts) dest
        = .ok ((fs.set dest none).set dest
            (some (.symlink (if opts.dereference then pathResolve opts.cwd ts else ts)))) := by
      simp [symlinkSync, FS.set]
    refine ⟨(fs.set dest none).set dest
      (some (.symlink (if opts.dereference then pathResolve opts.cwd ts else ts))), ?_, ?_, ?_⟩
    · simp only [onLink, hsrc, hdest, h1, Bool.false_eq_true, if_false, h2, copyLink,
        hunlink, ok_bind, hsym]
    · simp [FS.set]
    · intro p hp
      simp [FS.set, hp]

end CopyEngine

namespace CopyEngine

/-- C8: a configured filter returning false for an entry's (src, dest) pair
makes the engine skip that entry entirely.  At the root, `copySync` leaves the
filesystem exactly as it was (whether it returns or a preceding read-only
validation raised): no destination side effect, no recursion, so nothing under
`dest` can appear.  For a directory child, `copyDirItem` returns the untouched
filesystem immediately, before any validation or recursion, for every
recursion budget — no descendant of a filtered-out entry is ever visited or
created. -/
theorem c8_filter_skips_entry (fuel : ℕ) (fs : FS) (src dest : Path)
    (ro : RawCopyOpts) (opts : CopyOpts) (item : String) (flt : Path → Path → Bool)
    (hro : ro.filter = some flt) (hflt : flt src dest = false)
    (hopts : opts.filter = some flt)
    (hflt2 : flt (src ++ [item]) (dest ++ [item]) = false) :
    copyResState (copySync fuel fs src dest ro) = fs ∧
    copyDirItem fuel fs item src dest opts = .ok fs := by
  constructor
  · have hfo : filteredOut (resolveOpts ro) src dest = true := by
      simp [filteredOut, resolveOpts, hro, hflt]
    by_cases h2 : src = dest
    · subst h2
      cases h1 : (if (resolveOpts ro).dereference then statSyncF fs fuel src
          else lstatSync fs src) with
      | none => simp [copySync, checkPathsSync, h1, copyResState]
      | some s => simp [copySync, checkPathsSync, h1, copyResState]
    · cases h1 : (if (resolveOpts ro).dereference then statSyncF fs fuel src
          else lstatSync fs src) with
      | none =>
        simp [copySync, checkPathsSync, h1, copyResState]
      | some s =>
        by_cases h3 : src.isPrefixOf dest
        · simp [copySync, checkPathsSync, checkParentPathsSync, h1, h2, h3, copyResState]
        · simp [copySync, checkPathsSync, checkParentPathsSync, h1, h2, h3, hfo,
            copyResState]
  · unfold copyDirItem
    simp [filteredOut, hopts, hflt2]

end CopyEngine

namespace CopyEngine

/-- C6: copying a regular, character-device, or block-device file onto an
existing destination entry follows the overwrite policy of `mayCopyFile`:
with `overwrite` the destination is unlinked and the source's kind, bytes and
mode land at `dest` (no other path is touched); otherwise with `errorOnExist`
the already-exists error is raised with the filesystem — in particular the
destination's bytes — exactly as it was; otherwise the entry is silently
skipped and the filesystem is returned unchanged. -/
theorem c6_overwrite_policy (fuel : ℕ) (fs : FS) (k : FileKind) (data : List ℕ)
    (mode : ℕ) (dnode : FsNode) (src dest : Path) (opts : CopyOpts)
    (hsrc : fs src = some (.file k data mode))
    (hdest : fs dest = some dnode)
    (hne : src ≠ dest) :
    (opts.overwrite = true →
      ∃ fs2, getStats (fuel + 1) fs (some dnode) src dest opts = .ok fs2 ∧
        fs2 dest = some (.file k data mode) ∧ ∀ p, p ≠ dest → fs2 p = fs p) ∧
    (opts.overwrite = false → opts.errorOnExist = true →
      getStats (fuel + 1) fs (some dnode) src dest opts
        = .error (.alreadyExists dest, fs)) ∧
    (opts.overwrite = false → opts.errorOnExist = false →
      getStats (fuel + 1) fs (some dnode) src dest opts = .ok fs) := by
  have hstat : (if opts.dereference then statSyncF fs (fuel + 1) src else lstatSync fs src)
      = some (.file k data mode) := by
    cases opts.dereference <;> simp [statSyncF, lstatSync, hsrc]
  have hgs : getStats (fuel + 1) fs (some dnode) src dest opts
      = mayCopyFile (fuel + 1) fs (.file k data mode) src dest opts := by
    unfold getStats
    rw [hstat]
    rfl
  have hu : unlinkSync fs dest = .ok (fs.set dest none) := by
    simp [unlinkSync, hdest]
  have h1src : (fs.set dest none) src = some (.file k data mode) := by
    simp [FS.set, hne, hsrc]
  have hc : copyFileSync (fs.set dest none) src dest
      = .ok ((fs.set dest none).set dest (some (.file k data mode))) := by
    simp [copyFileSync, h1src]
  have hAdest : ((fs.set dest none).set dest (some (.file k data mode))) dest
      = some (.file k data mode) := by simp [FS.set]
  have hAsrc : ((fs.set dest none).set dest (some (.file k data mode))) src
      = some (.file k data mode) := by simp [FS.set, hne, hsrc]
  refine ⟨fun hov => ?_, fun hov hee => ?_, fun hov hee => ?_⟩
  · rw [hgs]
    simp only [mayCopyFile, hov, if_true]
    rw [hu, ok_bind]
    unfold copyFile
    rw [hc, ok_bind]
    have hm : FsNode.mode (FsNode.file k data mode) = mode := rfl
    rw [hm]
    cases hp : opts.preserveTimestamps with
    | false =>
      simp only [Bool.false_eq_true, if_false]
      rw [pure_bind_copy]
      refine ⟨((fs.set dest none).set dest (some (.file k data mode))).set dest
        (some (.file k data mode)), ?_, ?_, ?_⟩
      · simp [setDestMode, chmodSync, hAdest]
      · simp [FS.set]
      · intro p hp2
        simp [FS.set, hp2]
    | true =>
      simp only [if_true]
      unfold handleTimestamps
      cases hw : fileIsNotWritable mode with
      | false =>
        simp only [Bool.false_eq_true, if_false]
        rw [pure_bind_copy]
        have hts : setDestTimestamps (fuel + 1)
            ((fs.set dest none).set dest (some (.file k data mode))) src dest
            = .ok ((fs.set dest none).set dest (some (.file k data mode))) := by
          unfold setDestTimestamps
          rw [show statSyncF ((fs.set dest none).set dest (some (.file k data mode)))
              (fuel + 1) src = some (.file k data mode) by simp [statSyncF, hAsrc]]
          simp [utimesMillisSync, hAdest]
        rw [hts, ok_bind]
        refine ⟨((fs.set dest none).set dest (some (.file k data mode))).set dest
          (some (.file k data mode)), ?_, ?_, ?_⟩
        · simp [setDestMode, chmodSync, hAdest]
        · simp [FS.set]
        · intro p hp2
          simp [FS.set, hp2]
      | true =>
        simp only [if_true]
        have hmk : makeFileWritable ((fs.set dest none).set dest
            (some (.file k data mode))) dest mode
            = .ok (((fs.set dest none).set dest (some (.file k data mode))).set dest
                (some (.file k data (mode ||| 0o200)))) := by
          simp [makeFileWritable, setDestMode, chmodSync, hAdest]
        rw [hmk, ok_bind]
        have hBsrc : (((fs.set dest none).set dest (some (.file k data mode))).set dest
            (some (.file k data (mode ||| 0o200)))) src = some (.file k data mode) := by
          simp [FS.set, hne, hsrc]
        have hBdest : (((fs.set dest none).set dest (some (.file k data mode))).set dest
            (some (.file k data (mode ||| 0o200)))) dest
            = some (.file k data (mode ||| 0o200)) := by
          simp [FS.set]
        have hts : setDestTimestamps (fuel + 1)
            (((fs.set dest none).set dest (some (.file k data mode))).set dest
              (some (.file k data (mode ||| 0o200)))) src dest
            = .ok (((fs.set dest none).set dest (some (.file k data mode))).set dest
                (some (.file k data (mode ||| 0o200)))) := by
          unfold setDestTimestamps
          rw [show statSyncF (((fs.set dest none).set dest
              (some (.file k data mode))).set dest
              (some (.file k data (mode ||| 0o200)))) (fuel + 1) src
              = some (.file k data mode) by simp [statSyncF, hBsrc]]
          simp [utimesMillisSync, hBdest]
        rw [hts, ok_bind]
        refine ⟨(((fs.set dest none).set dest (some (.file k data mode))).set dest
          (some (.file k data (mode ||| 0o200)))).set dest
          (some (.file k data mode)), ?_, ?_, ?_⟩
        · simp [setDestMode, chmodSync, hBdest]
        · simp [FS.set]
        · intro p hp2
          simp [FS.set, hp2]
  · rw [hgs]
    simp only [mayCopyFile, hov, Bool.false_eq_true, if_false, hee, if_true]
  · rw [hgs]
    simp only [mayCopyFile, hov, hee, Bool.false_eq_true, if_false]

end CopyEngine

namespace CopyEngine

/-- A two-file filesystem for the C6 witness: a source file at `a` and a
pre-existing destination file at `b` with different bytes and mode. -/
def fsC6 : FS := fun p =>
  if p = ["a"] then some (.file .regular [1, 2] 420)
  else if p = ["b"] then some (.file .regular [9] 256)
  else none

/-- Witness for C6 at a concrete two-file filesystem with default options. -/
theorem c6_witness :
    fsC6 ["a"] = some (.file .regular [1, 2] 420) ∧
    fsC6 ["b"] = some (.file .regular [9] 256) ∧
    (["a"] : Path) ≠ ["b"] ∧
    ((({} : CopyOpts).overwrite = true →
      ∃ fs2, getStats (0 + 1) fsC6 (some (.file .regular [9] 256)) ["a"] ["b"] {}
          = .ok fs2 ∧
        fs2 ["b"] = some (.file .regular [1, 2] 420) ∧
        ∀ p, p ≠ ["b"] → fs2 p = fsC6 p) ∧
    (({} : CopyOpts).overwrite = false → ({} : CopyOpts).errorOnExist = true →
      getStats (0 + 1) fsC6 (some (.file .regular [9] 256)) ["a"] ["b"] {}
        = .error (.alreadyExists ["b"], fsC6)) ∧
    (({} : CopyOpts).overwrite = false → ({} : CopyOpts).errorOnExist = false →
      getStats (0 + 1) fsC6 (some (.file .regular [9] 256)) ["a"] ["b"] {}
        = .ok fsC6)) := by
  refine ⟨rfl, rfl, by decide, ?_⟩
  exact c6_overwrite_policy 0 fsC6 .regular [1, 2] 420 (.file .regular [9] 256)
    ["a"] ["b"] {} rfl rfl (by decide)

/-- A filesystem for the C7 witness: a source link at `s` and an existing
destination link at `d`, with unrelated absolute targets. -/
def fsC7 : FS := fun p =>
  if p = ["s"] then some (.symlink { absolute := true, segs := ["t", "u"] })
  else if p = ["d"] then some (.symlink { absolute := true, segs := ["w"] })
  else none

/-- Witness for C7 at a concrete pair of links (no dereferencing). -/
theorem c7_witness :
    fsC7 ["s"] = some (.symlink { absolute := true, segs := ["t", "u"] }) ∧
    fsC7 ["d"] = some (.symlink { absolute := true, segs := ["w"] }) ∧
    ((isSrcSubdir { absolute := true, segs := ["t", "u"] }
        { absolute := true, segs := ["w"] } = true →
      onLink fsC7 (some (.symlink { absolute := true, segs := ["w"] })) ["s"] ["d"] {}
        = .error (.selfCopy { absolute := true, segs := ["t", "u"] }
            { absolute := true, segs := ["w"] }, fsC7)) ∧
    (isSrcSubdir { absolute := true, segs := ["t", "u"] }
        { absolute := true, segs := ["w"] } = false →
      isSrcSubdir { absolute := true, segs := ["w"] }
        { absolute := true, segs := ["t", "u"] } = true →
      onLink fsC7 (some (.symlink { absolute := true, segs := ["w"] })) ["s"] ["d"] {}
        = .error (.overwriteConflict { absolute := true, segs := ["w"] }
            { absolute := true, segs := ["t", "u"] }, fsC7)) ∧
    (isSrcSubdir { absolute := true, segs := ["t", "u"] }
        { absolute := true, segs := ["w"] } = false →
      isSrcSubdir { absolute := true, segs := ["w"] }
        { absolute := true, segs := ["t", "u"] } = false →
      ∃ fs2, onLink fsC7 (some (.symlink { absolute := true, segs := ["w"] }))
          ["s"] ["d"] {} = .ok fs2 ∧
        fs2 ["d"] = some (.symlink { absolute := true, segs := ["t", "u"] }) ∧
        ∀ p, p ≠ ["d"] → fs2 p = fsC7 p)) := by
  refine ⟨rfl, rfl, ?_⟩
  have h := c7_symlink_conflicts fsC7 { absolute := true, segs := ["t", "u"] }
    { absolute := true, segs := ["w"] } (.symlink { absolute := true, segs := ["w"] })
    ["s"] ["d"] {} { absolute := true, segs := ["t", "u"] }
    { absolute := true, segs := ["w"] } rfl rfl rfl rfl
  exact h

/-- Witness for C8: an always-false filter over an empty filesystem. -/
theorem c8_witness :
    ({ filter := some fun _ _ => false } : RawCopyOpts).filter
      = some (fun _ _ => false) ∧
    (fun (_ : Path) (_ : Path) => false) ["a"] ["b"] = false ∧
    copyResState (copySync 3 (fun _ => none) ["a"] ["b"]
        { filter := some fun _ _ => false }) = (fun _ => none) ∧
    copyDirItem 3 (fun _ => none) "x" ["a"] ["b"] { filter := some fun _ _ => false }
      = .ok (fun _ => none) := by
  have h := c8_filter_skips_entry 3 (fun _ => none) ["a"] ["b"]
    { filter := some fun _ _ => false } { filter := some fun _ _ => false } "x"
    (fun _ _ => false) rfl rfl rfl rfl
  exact ⟨rfl, rfl, h.1, h.2⟩

end CopyEngine
